import Mathlib

/-!
# Verification of `base_utils.aws.s3_manager`

A shallow embedding of the batch file-transfer utility of this repository
(`src/base_utils/aws/s3_manager.py`, class `S3Manager`) together with proofs
of the specified properties.

Modelling conventions:

* Calls into the external boto3/botocore client are modelled by an oracle
  value (`S3CallResult`): the call either returns normally, raises a
  `botocore.exceptions.ClientError`, or raises an exception of any other
  type (e.g. `boto3.exceptions.S3UploadFailedError`).
* The local filesystem is the set of existing file paths, as a `List String`.
* A Python function that may let an exception escape is embedded with result
  type `Except String α`: `Except.error e` means the exception `e` propagates
  to the caller.
* The thread pool of `upload_files_batch` is abstracted by the list
  `completed` of `(task, future-result)` pairs in the order
  `concurrent.futures.as_completed` delivers them: each submitted future is
  delivered exactly once, in an arbitrary order, which is expressed by a
  permutation hypothesis relating `completed` to the enumerated file list.
* `os.remove` may fail with an `OSError`; this is modelled by the oracle
  `removeOk : String → Bool`.
-/

namespace BaseUtils

namespace S3

/-- Outcome of one call into the underlying storage client
(`self.s3.upload_file` / `self.s3.download_file`): the call returns normally,
raises a `botocore.exceptions.ClientError`, or raises an exception of some
other type, carrying its message. -/
inductive S3CallResult where
  | ok : S3CallResult
  | clientError : String → S3CallResult
  | otherError : String → S3CallResult
deriving DecidableEq, Repr

/-- `S3Manager.upload_file` (s3_manager.py lines 115-139): perform the
transfer call, return `True` on success; `except ClientError` converts a
`ClientError` into `False`.  An exception of any other type is not caught and
propagates (`Except.error`). -/
def upload_file (call : S3CallResult) : Except String Bool :=
  match call with
  | .ok => Except.ok true
  | .clientError _e => Except.ok false
  | .otherError e => Except.error e

/-- `S3Manager.download_file` (s3_manager.py lines 141-165): same shape as
`upload_file`, with the transfer direction reversed (the direction does not
affect the control flow being modelled). -/
def download_file (call : S3CallResult) : Except String Bool :=
  match call with
  | .ok => Except.ok true
  | .clientError _e => Except.ok false
  | .otherError e => Except.error e

/-- One entry of `os.listdir(source_dir)` together with the result of the
`os.path.isfile` test on the joined path. -/
structure DirEntry where
  name : String
  isFile : Bool
deriving DecidableEq, Repr

/-- One upload task, i.e. one `(local, s3)` pair of the `files` list built in
`upload_files_batch` (lines 72-76). -/
structure TransferTask where
  localPath : String
  s3Path : String
deriving DecidableEq, Repr

/-- `os.path.join a b` for a relative second component on a POSIX host. -/
def pathJoin (a b : String) : String := a ++ "/" ++ b

/-- `.replace("\\", "/")`: since the pattern is the single character `\`,
replacing it by `/` is exactly a character map over the string. -/
def replaceBackslashes (s : String) : String :=
  ⟨s.data.map (fun c => if c = '\\' then '/' else c)⟩

/-- Lines 72-76: collect only files directly in the directory (no recursion);
each kept entry becomes the pair
`(os.path.join(source_dir, fname), os.path.join(dest_dir, fname).replace("\\", "/"))`. -/
def collectFiles (source_dir dest_dir : String) (entries : List DirEntry) :
    List TransferTask :=
  (entries.filter (fun e => e.isFile)).map (fun e =>
    { localPath := pathJoin source_dir e.name
      s3Path := replaceBackslashes (pathJoin dest_dir e.name) })

/-- Result of `future.result()` for one submitted upload (line 93): the
future either returns the boolean of `upload_file`, or re-raises an exception
that escaped `upload_file`. -/
inductive FutureResult where
  | ok : Bool → FutureResult
  | exc : String → FutureResult
deriving DecidableEq, Repr

/-- The boolean appended to `results` for one completed future:
`future.result()` when it returns, `False` when it raises (lines 93-106). -/
def outcomeBool : FutureResult → Bool
  | .ok b => b
  | .exc _ => false

/-- Observable actions of the completion loop, in program order:
`record p b` is the append of `b` to `results` for the task with local path
`p`; `deleteLocal p` is a successful `os.remove(p)`. -/
inductive Event where
  | record : String → Bool → Event
  | deleteLocal : String → Event
deriving DecidableEq, Repr

/-- State threaded through the `as_completed` loop of `upload_files_batch`:
the local filesystem, the `results` list, the trace of observable events, and
the error log. -/
structure LoopState where
  fs : List String
  results : List Bool
  events : List Event
  errorLog : List String
deriving Repr

/-- The body of the `for future in concurrent.futures.as_completed(...)` loop
(s3_manager.py lines 90-106), for one completed future.

* `future.result()` returns `success`: append it to `results`; if it is
  `True` and `delete_after` is set, `os.remove(local)` inside
  `try/except OSError` (success removes the file, failure only logs); if it
  is `False`, log the failure.
* `future.result()` raises: log and append `False`. -/
def processCompleted (delete_after : Bool) (removeOk : String → Bool)
    (st : LoopState) (item : TransferTask × FutureResult) : LoopState :=
  match item.2 with
  | .ok success =>
    let st1 : LoopState :=
      { st with results := st.results ++ [success]
                events := st.events ++ [Event.record item.1.localPath success] }
    if success then
      if delete_after then
        if removeOk item.1.localPath then
          { st1 with fs := st1.fs.filter (fun p => p ≠ item.1.localPath)
                     events := st1.events ++ [Event.deleteLocal item.1.localPath] }
        else
          { st1 with errorLog :=
              st1.errorLog ++ ["Failed to delete " ++ item.1.localPath] }
      else st1
    else
      { st1 with errorLog :=
          st1.errorLog ++ ["Failed to upload " ++ item.1.localPath] }
  | .exc e =>
    { st with results := st.results ++ [false]
              events := st.events ++ [Event.record item.1.localPath false]
              errorLog := st.errorLog ++
                ["Exception uploading " ++ item.1.localPath ++ ": " ++ e] }

/-- The value returned by `upload_files_batch` (`ret`, the Python return
value) together with the observable effects of the call: the tasks submitted
to the pool, the final `results` list, the event trace, the final local
filesystem, and the error log. -/
structure BatchReturn where
  ret : Bool
  submitted : List TransferTask
  results : List Bool
  events : List Event
  fs : List String
  errorLog : List String
deriving Repr

/-- `S3Manager.upload_files_batch` (s3_manager.py lines 46-113).

* `isdir` is the result of `os.path.isdir(source_dir)`; if false, return
  `False` at once (lines 67-69).
* `entries` is `os.listdir(source_dir)` with the per-entry `os.path.isfile`
  results; if no files are collected, return `False` (lines 78-80).
* Otherwise every task is submitted and each completed future is handled by
  `processCompleted`; `completed` is the sequence delivered by
  `as_completed`.  The return value is `all(results)` (lines 108-113). -/
def upload_files_batch (isdir : Bool) (entries : List DirEntry)
    (source_dir dest_dir : String) (max_workers : Nat) (delete_after : Bool)
    (completed : List (TransferTask × FutureResult))
    (removeOk : String → Bool) (fs0 : List String) : BatchReturn :=
  if isdir = false then
    { ret := false, submitted := [], results := [], events := [], fs := fs0
      errorLog := ["Source directory does not exist: " ++ source_dir] }
  else
    let files := collectFiles source_dir dest_dir entries
    if files.isEmpty then
      { ret := false, submitted := [], results := [], events := [], fs := fs0
        errorLog := ["No files found in " ++ source_dir ++ " to upload."] }
    else
      let final := completed.foldl (processCompleted delete_after removeOk)
        { fs := fs0, results := [], events := [], errorLog := [] }
      { ret := final.results.all (fun b => b)
        submitted := files
        results := final.results
        events := final.events
        fs := final.fs
        errorLog := final.errorLog }

/-- Result of one use of the context manager `download_file_temp`:
the final local filesystem, the outcome delivered to code surrounding the
`with` block (`Except.error e` = exception `e` propagates), and whether
`os.unlink` was executed in the `finally` block. -/
structure TempDownloadReturn where
  fs : List String
  outcome : Except String Unit
  unlinkCalled : Bool
deriving Repr

/-- The `finally` block of `download_file_temp` (lines 199-202):
`if temp_path and os.path.exists(temp_path): os.unlink(temp_path)`, followed
by delivering `r` (a normal exit or a propagating exception) to the caller. -/
def tempCleanup (tmp : String) (fs : List String) (r : Except String Unit) :
    TempDownloadReturn :=
  if tmp ∈ fs then
    { fs := fs.filter (fun p => p ≠ tmp), outcome := r, unlinkCalled := true }
  else
    { fs := fs, outcome := r, unlinkCalled := false }

/-- `S3Manager.download_file_temp` (s3_manager.py lines 167-202).

* `tmp` is the fresh name chosen by `tempfile.NamedTemporaryFile(delete=False)`;
  creating it adds it to the filesystem.
* `dl` is the oracle for `self.s3.download_file`: a `ClientError` is caught,
  logged and re-raised (lines 195-197); any other exception propagates
  uncaught; both reach the caller after the `finally` block runs.
* On a successful download the body of the caller's `with` block runs
  (`yield temp_path`): `bodyRemovesTemp` says whether the body itself removed
  the temporary file, `bodyRaises` whether it raised an exception.
* Every path ends in the `finally` block `tempCleanup`. -/
def download_file_temp (tmp : String) (fs0 : List String) (dl : S3CallResult)
    (bodyRemovesTemp : Bool) (bodyRaises : Option String) :
    TempDownloadReturn :=
  let fs1 := fs0 ++ [tmp]
  match dl with
  | .clientError e => tempCleanup tmp fs1 (Except.error e)
  | .otherError e => tempCleanup tmp fs1 (Except.error e)
  | .ok =>
    let fs2 := if bodyRemovesTemp then fs1.filter (fun p => p ≠ tmp) else fs1
    match bodyRaises with
    | some e => tempCleanup tmp fs2 (Except.error e)
    | none => tempCleanup tmp fs2 (Except.ok ())

/-- The outcome the code around the `with` block of `download_file_temp`
observes, as a function of the download result and the body's behaviour: a
failed download re-signals its error; otherwise an exception of the body
propagates; otherwise the scope exits normally. -/
def tempScopeOutcome (dl : S3CallResult) (bodyRaises : Option String) :
    Except String Unit :=
  match dl with
  | .clientError e => Except.error e
  | .otherError e => Except.error e
  | .ok =>
    match bodyRaises with
    | some e => Except.error e
    | none => Except.ok ()

/-- The block of events one completed future contributes to the trace, read
off the branches of `processCompleted`. -/
def stepEvents (delete_after : Bool) (removeOk : String → Bool)
    (item : TransferTask × FutureResult) : List Event :=
  match item.2 with
  | .ok true =>
    if delete_after then
      if removeOk item.1.localPath then
        [Event.record item.1.localPath true, Event.deleteLocal item.1.localPath]
      else
        [Event.record item.1.localPath true]
    else
      [Event.record item.1.localPath true]
  | .ok false => [Event.record item.1.localPath false]
  | .exc _ => [Event.record item.1.localPath false]

/-- The full event trace of a run of the completion loop: per-task blocks in
completion order. -/
def eventsOfRun (delete_after : Bool) (removeOk : String → Bool) :
    List (TransferTask × FutureResult) → List Event
  | [] => []
  | item :: rest => stepEvents delete_after removeOk item ++
      eventsOfRun delete_after removeOk rest

/-- Whether handling `item` removes its local file: only a successful upload
with `delete_after` set and a succeeding `os.remove`. -/
def removesFile (delete_after : Bool) (removeOk : String → Bool)
    (item : TransferTask × FutureResult) : Bool :=
  match item.2 with
  | .ok true => delete_after && removeOk item.1.localPath
  | .ok false => false
  | .exc _ => false

/-- Project a `record` event to the local path it recorded. -/
def recordedLocal : Event → Option String
  | .record p _ => some p
  | .deleteLocal _ => none

/-- Position of the first occurrence of an event in a trace. -/
def eventPos (l : List Event) (ev : Event) : Nat :=
  l.findIdx (fun x => x = ev)

theorem processCompleted_results (delete_after : Bool) (removeOk : String → Bool)
    (st : LoopState) (item : TransferTask × FutureResult) :
    (processCompleted delete_after removeOk st item).results
      = st.results ++ [outcomeBool item.2] := by
  rcases item with ⟨t, fr⟩
  cases fr with
  | ok b => cases b <;> simp only [processCompleted, outcomeBool] <;> split_ifs <;> rfl
  | exc e => rfl

theorem processCompleted_events (delete_after : Bool) (removeOk : String → Bool)
    (st : LoopState) (item : TransferTask × FutureResult) :
    (processCompleted delete_after removeOk st item).events
      = st.events ++ stepEvents delete_after removeOk item := by
  rcases item with ⟨t, fr⟩
  cases fr with
  | ok b =>
    cases b with
    | false => simp [processCompleted, stepEvents]
    | true =>
      cases delete_after with
      | false => simp [processCompleted, stepEvents]
      | true =>
        cases hr : removeOk t.localPath with
        | false => simp [processCompleted, stepEvents, hr]
        | true => simp [processCompleted, stepEvents, hr]
  | exc e => rfl

theorem processCompleted_fs (delete_after : Bool) (removeOk : String → Bool)
    (st : LoopState) (item : TransferTask × FutureResult) :
    (processCompleted delete_after removeOk st item).fs
      = if removesFile delete_after removeOk item = true then
          st.fs.filter (fun p => p ≠ item.1.localPath)
        else st.fs := by
  rcases item with ⟨t, fr⟩
  cases fr with
  | ok b =>
    cases b with
    | false => simp [processCompleted, removesFile]
    | true =>
      cases delete_after with
      | false => simp [processCompleted, removesFile]
      | true =>
        cases hr : removeOk t.localPath with
        | false => simp [processCompleted, removesFile, hr]
        | true => simp [processCompleted, removesFile, hr]
  | exc e => rfl

theorem removesFile_eq_true (delete_after : Bool) (removeOk : String → Bool)
    (item : TransferTask × FutureResult) :
    removesFile delete_after removeOk item = true ↔
      item.2 = FutureResult.ok true ∧ delete_after = true ∧
        removeOk item.1.localPath = true := by
  rcases item with ⟨t, fr⟩
  cases fr with
  | ok b => cases b <;> simp [removesFile]
  | exc e => simp [removesFile]

theorem foldl_processCompleted_results (delete_after : Bool)
    (removeOk : String → Bool) (l : List (TransferTask × FutureResult))
    (st : LoopState) :
    (l.foldl (processCompleted delete_after removeOk) st).results
      = st.results ++ l.map (fun item => outcomeBool item.2) := by
  induction l generalizing st with
  | nil => simp
  | cons a l ih =>
    rw [List.foldl_cons, ih, processCompleted_results]
    simp

theorem foldl_processCompleted_events (delete_after : Bool)
    (removeOk : String → Bool) (l : List (TransferTask × FutureResult))
    (st : LoopState) :
    (l.foldl (processCompleted delete_after removeOk) st).events
      = st.events ++ eventsOfRun delete_after removeOk l := by
  induction l generalizing st with
  | nil => simp [eventsOfRun]
  | cons a l ih =>
    rw [List.foldl_cons, ih, processCompleted_events, eventsOfRun]
    simp

theorem foldl_processCompleted_fs_mem (delete_after : Bool)
    (removeOk : String → Bool) (l : List (TransferTask × FutureResult))
    (st : LoopState) (p : String) :
    p ∈ (l.foldl (processCompleted delete_after removeOk) st).fs ↔
      p ∈ st.fs ∧ ∀ item ∈ l,
        removesFile delete_after removeOk item = true → item.1.localPath ≠ p := by
  induction l generalizing st with
  | nil => simp
  | cons a l ih =>
    rw [List.foldl_cons, ih, processCompleted_fs]
    by_cases h : removesFile delete_after removeOk a = true
    · simp only [if_pos h, List.mem_filter, decide_eq_true_eq, List.mem_cons]
      constructor
      · rintro ⟨⟨hp, hne⟩, hall⟩
        refine ⟨hp, fun item hmem hrem => ?_⟩
        rcases hmem with rfl | hmem
        · exact fun he => hne he.symm
        · exact hall item hmem hrem
      · rintro ⟨hp, hall⟩
        exact ⟨⟨hp, fun he => hall a (Or.inl rfl) h he.symm⟩,
          fun item hmem hrem => hall item (Or.inr hmem) hrem⟩
    · simp only [if_neg h, List.mem_cons]
      constructor
      · rintro ⟨hp, hall⟩
        refine ⟨hp, fun item hmem hrem => ?_⟩
        rcases hmem with rfl | hmem
        · exact absurd hrem h
        · exact hall item hmem hrem
      · rintro ⟨hp, hall⟩
        exact ⟨hp, fun item hmem hrem => hall item (Or.inr hmem) hrem⟩

theorem stepEvents_filterMap (delete_after : Bool) (removeOk : String → Bool)
    (item : TransferTask × FutureResult) :
    (stepEvents delete_after removeOk item).filterMap recordedLocal
      = [item.1.localPath] := by
  rcases item with ⟨t, fr⟩
  cases fr with
  | ok b =>
    cases b with
    | false => simp [stepEvents, recordedLocal]
    | true =>
      simp only [stepEvents]
      split_ifs <;> simp [recordedLocal]
  | exc e => simp [stepEvents, recordedLocal]

theorem eventsOfRun_filterMap (delete_after : Bool) (removeOk : String → Bool)
    (l : List (TransferTask × FutureResult)) :
    (eventsOfRun delete_after removeOk l).filterMap recordedLocal
      = l.map (fun item => item.1.localPath) := by
  induction l with
  | nil => rfl
  | cons a l ih =>
    rw [eventsOfRun, List.filterMap_append, stepEvents_filterMap, ih]
    rfl

theorem eventsOfRun_no_delete (removeOk : String → Bool)
    (l : List (TransferTask × FutureResult)) (p : String) :
    Event.deleteLocal p ∉ eventsOfRun false removeOk l := by
  induction l with
  | nil => simp [eventsOfRun]
  | cons a l ih =>
    rw [eventsOfRun]
    simp only [List.mem_append]
    rintro (h | h)
    · rcases a with ⟨t, fr⟩
      cases fr with
      | ok b => cases b <;> simp [stepEvents] at h
      | exc e => simp [stepEvents] at h
    · exact ih h

theorem processCompleted_fs_no_delete (removeOk : String → Bool)
    (st : LoopState) (item : TransferTask × FutureResult) :
    (processCompleted false removeOk st item).fs = st.fs := by
  rw [processCompleted_fs]
  rcases item with ⟨t, fr⟩
  cases fr with
  | ok b => cases b <;> simp [removesFile]
  | exc e => simp [removesFile]

theorem foldl_fs_no_delete (removeOk : String → Bool)
    (l : List (TransferTask × FutureResult)) (st : LoopState) :
    (l.foldl (processCompleted false removeOk) st).fs = st.fs := by
  induction l generalizing st with
  | nil => rfl
  | cons a l ih => rw [List.foldl_cons, ih, processCompleted_fs_no_delete]

theorem upload_files_batch_results_main (entries : List DirEntry)
    (source_dir dest_dir : String) (max_workers : Nat) (delete_after : Bool)
    (completed : List (TransferTask × FutureResult)) (removeOk : String → Bool)
    (fs0 : List String)
    (hne : (collectFiles source_dir dest_dir entries).isEmpty = false) :
    (upload_files_batch true entries source_dir dest_dir max_workers
        delete_after completed removeOk fs0).results
      = completed.map (fun item => outcomeBool item.2) := by
  simp [upload_files_batch, hne, foldl_processCompleted_results]

theorem upload_files_batch_events_main (entries : List DirEntry)
    (source_dir dest_dir : String) (max_workers : Nat) (delete_after : Bool)
    (completed : List (TransferTask × FutureResult)) (removeOk : String → Bool)
    (fs0 : List String)
    (hne : (collectFiles source_dir dest_dir entries).isEmpty = false) :
    (upload_files_batch true entries source_dir dest_dir max_workers
        delete_after completed removeOk fs0).events
      = eventsOfRun delete_after removeOk completed := by
  simp [upload_files_batch, hne, foldl_processCompleted_events]

theorem upload_files_batch_ret_main (entries : List DirEntry)
    (source_dir dest_dir : String) (max_workers : Nat) (delete_after : Bool)
    (completed : List (TransferTask × FutureResult)) (removeOk : String → Bool)
    (fs0 : List String)
    (hne : (collectFiles source_dir dest_dir entries).isEmpty = false) :
    (upload_files_batch true entries source_dir dest_dir max_workers
        delete_after completed removeOk fs0).ret
      = (completed.map (fun item => outcomeBool item.2)).all (fun b => b) := by
  simp [upload_files_batch, hne, foldl_processCompleted_results]

theorem upload_files_batch_fs_mem_main (entries : List DirEntry)
    (source_dir dest_dir : String) (max_workers : Nat) (delete_after : Bool)
    (completed : List (TransferTask × FutureResult)) (removeOk : String → Bool)
    (fs0 : List String) (p : String)
    (hne : (collectFiles source_dir dest_dir entries).isEmpty = false) :
    p ∈ (upload_files_batch true entries source_dir dest_dir max_workers
        delete_after completed removeOk fs0).fs ↔
      p ∈ fs0 ∧ ∀ item ∈ completed,
        removesFile delete_after removeOk item = true → item.1.localPath ≠ p := by
  have h : (upload_files_batch true entries source_dir dest_dir max_workers
      delete_after completed removeOk fs0).fs
      = (completed.foldl (processCompleted delete_after removeOk)
          { fs := fs0, results := [], events := [], errorLog := [] }).fs := by
    simp [upload_files_batch, hne]
  rw [h, foldl_processCompleted_fs_mem]

/-- **C1.** For every source directory containing N files (N ≥ 1) and every
`max_workers ≥ 1`, `upload_files_batch` records exactly N per-task outcomes in
`results`, one per discovered file (the recorded local paths are a permutation
of the discovered files' local paths), with no outcome added or lost even when
an individual upload raises an unexpected exception (`FutureResult.exc`). -/
theorem upload_files_batch_one_outcome_per_file (entries : List DirEntry)
    (source_dir dest_dir : String) (max_workers : Nat) (delete_after : Bool)
    (completed : List (TransferTask × FutureResult)) (removeOk : String → Bool)
    (fs0 : List String) (N : Nat)
    (hN : (collectFiles source_dir dest_dir entries).length = N)
    (hN1 : 1 ≤ N) (hw : 1 ≤ max_workers)
    (hperm : (completed.map Prod.fst).Perm (collectFiles source_dir dest_dir entries)) :
    (upload_files_batch true entries source_dir dest_dir max_workers
        delete_after completed removeOk fs0).results.length = N
    ∧ ((upload_files_batch true entries source_dir dest_dir max_workers
        delete_after completed removeOk fs0).events.filterMap recordedLocal).Perm
        ((collectFiles source_dir dest_dir entries).map (fun t => t.localPath)) := by
  have hlen : completed.length = N := by
    have h := hperm.length_eq
    rw [List.length_map] at h
    omega
  have hne : (collectFiles source_dir dest_dir entries).isEmpty = false := by
    rcases h : collectFiles source_dir dest_dir entries with _ | ⟨a, l⟩
    · rw [h] at hN
      simp at hN
      omega
    · rfl
  constructor
  · rw [upload_files_batch_results_main _ _ _ _ _ _ _ _ hne, List.length_map,
      hlen]
  · rw [upload_files_batch_events_main _ _ _ _ _ _ _ _ hne,
      eventsOfRun_filterMap]
    have h : completed.map (fun item => item.1.localPath)
        = (completed.map Prod.fst).map (fun t => t.localPath) := by
      rw [List.map_map]
      rfl
    rw [h]
    exact hperm.map _

/-- Witness for C1: a directory with two files, completion in reverse order,
one task raising an unexpected exception. -/
theorem upload_files_batch_one_outcome_per_file_witness :
    (upload_files_batch true [⟨"a", true⟩, ⟨"b", true⟩] "s" "d" 16 false
        [(⟨"s/b", "d/b"⟩, FutureResult.exc "boom"),
         (⟨"s/a", "d/a"⟩, FutureResult.ok true)]
        (fun _ => true) ["s/a", "s/b"]).results.length = 2
    ∧ ((upload_files_batch true [⟨"a", true⟩, ⟨"b", true⟩] "s" "d" 16 false
        [(⟨"s/b", "d/b"⟩, FutureResult.exc "boom"),
         (⟨"s/a", "d/a"⟩, FutureResult.ok true)]
        (fun _ => true) ["s/a", "s/b"]).events.filterMap recordedLocal).Perm
        ((collectFiles "s" "d" [⟨"a", true⟩, ⟨"b", true⟩]).map
          (fun t => t.localPath)) :=
  upload_files_batch_one_outcome_per_file [⟨"a", true⟩, ⟨"b", true⟩] "s" "d" 16
    false
    [(⟨"s/b", "d/b"⟩, FutureResult.exc "boom"),
     (⟨"s/a", "d/a"⟩, FutureResult.ok true)]
    (fun _ => true) ["s/a", "s/b"] 2 (by decide) (by decide) (by decide)
    (by decide)

/-- **C2** counterexample: on a one-file directory whose upload succeeds with
`delete_after` set and a succeeding `os.remove`, the deletion is NOT performed
before the outcome is recorded: in the event trace the `record` comes first.
This refutes the claim that the post-success deletion precedes the recording
of the outcome. -/
theorem upload_files_batch_delete_not_before_record :
    ¬ (eventPos (upload_files_batch true [⟨"a", true⟩] "s" "d" 16 true
          [(⟨"s/a", "d/a"⟩, FutureResult.ok true)] (fun _ => true)
          ["s/a"]).events (Event.deleteLocal "s/a")
        < eventPos (upload_files_batch true [⟨"a", true⟩] "s" "d" 16 true
          [(⟨"s/a", "d/a"⟩, FutureResult.ok true)] (fun _ => true)
          ["s/a"]).events (Event.record "s/a" true)) := by
  decide

/-- **C2 amended.** In the batch upload's per-task completion handling, when
`delete_after` is true and the task succeeded, the task's outcome is recorded
in the result collection first and the post-success deletion of the local
file is performed immediately afterwards, within the same completion-handling
step (before any later task's outcome is processed). -/
theorem processCompleted_records_before_delete (removeOk : String → Bool)
    (st : LoopState) (t : TransferTask)
    (hr : removeOk t.localPath = true) :
    (processCompleted true removeOk st (t, FutureResult.ok true)).events
      = st.events ++ [Event.record t.localPath true,
                      Event.deleteLocal t.localPath]
    ∧ (processCompleted true removeOk st (t, FutureResult.ok true)).results
      = st.results ++ [true] := by
  constructor
  · rw [processCompleted_events]
    simp [stepEvents, hr]
  · rw [processCompleted_results]
    rfl

/-- Witness for the amended C2. -/
theorem processCompleted_records_before_delete_witness :
    (processCompleted true (fun _ => true)
        { fs := ["x"], results := [], events := [], errorLog := [] }
        (⟨"x", "y"⟩, FutureResult.ok true)).events
      = [Event.record "x" true, Event.deleteLocal "x"]
    ∧ (processCompleted true (fun _ => true)
        { fs := ["x"], results := [], events := [], errorLog := [] }
        (⟨"x", "y"⟩, FutureResult.ok true)).results = [true] := by
  have h := processCompleted_records_before_delete (fun _ => true)
    { fs := ["x"], results := [], events := [], errorLog := [] }
    ⟨"x", "y"⟩ rfl
  simpa using h

/-- **C3** counterexample: when the underlying transfer call raises an
exception that is not a `botocore ClientError` (e.g. boto3's
`S3UploadFailedError`), both `upload_file` and `download_file` propagate it
instead of returning a boolean, refuting "never propagate an exception". -/
theorem upload_file_propagates_non_client_error :
    upload_file (S3CallResult.otherError "S3UploadFailedError")
      = Except.error "S3UploadFailedError"
    ∧ download_file (S3CallResult.otherError "S3UploadFailedError")
      = Except.error "S3UploadFailedError" :=
  ⟨rfl, rfl⟩

/-- **C3 amended.** `upload_file` and `download_file` return a boolean when
the underlying transfer call returns normally (`true`) or raises a
`ClientError` (caught and converted to `false`); an exception of any other
type raised by the underlying call propagates to the caller. -/
theorem transfer_primitives_error_handling (e : String) :
    upload_file S3CallResult.ok = Except.ok true
    ∧ upload_file (S3CallResult.clientError e) = Except.ok false
    ∧ upload_file (S3CallResult.otherError e) = Except.error e
    ∧ download_file S3CallResult.ok = Except.ok true
    ∧ download_file (S3CallResult.clientError e) = Except.ok false
    ∧ download_file (S3CallResult.otherError e) = Except.error e :=
  ⟨rfl, rfl, rfl, rfl, rfl, rfl⟩

theorem tempCleanup_fs_not_mem (tmp : String) (fs : List String)
    (r : Except String Unit) : tmp ∉ (tempCleanup tmp fs r).fs := by
  unfold tempCleanup
  split_ifs with h
  · simp [List.mem_filter]
  · exact h

theorem tempCleanup_outcome (tmp : String) (fs : List String)
    (r : Except String Unit) : (tempCleanup tmp fs r).outcome = r := by
  unfold tempCleanup
  split_ifs <;> rfl

theorem tempCleanup_not_mem_eq (tmp : String) (fs : List String)
    (r : Except String Unit) (h : tmp ∉ fs) :
    tempCleanup tmp fs r = { fs := fs, outcome := r, unlinkCalled := false } := by
  unfold tempCleanup
  rw [if_neg h]

/-- **C4.** For every execution of `download_file_temp`, the temporary file
does not exist on disk after the scope exits, on every exit path (normal
completion, download failure of either exception type, or an exception raised
inside the caller's scope); and the outcome observed by the caller is exactly
`tempScopeOutcome`: when the download fails, the original error is
re-signaled to the caller, with the cleanup already performed in the
delivered state. -/
theorem download_file_temp_cleanup_and_resignal (tmp : String)
    (fs0 : List String) (dl : S3CallResult) (bodyRemovesTemp : Bool)
    (bodyRaises : Option String) :
    tmp ∉ (download_file_temp tmp fs0 dl bodyRemovesTemp bodyRaises).fs
    ∧ (download_file_temp tmp fs0 dl bodyRemovesTemp bodyRaises).outcome
        = tempScopeOutcome dl bodyRaises := by
  cases dl with
  | clientError e =>
    exact ⟨tempCleanup_fs_not_mem _ _ _, tempCleanup_outcome _ _ _⟩
  | otherError e =>
    exact ⟨tempCleanup_fs_not_mem _ _ _, tempCleanup_outcome _ _ _⟩
  | ok =>
    cases bodyRaises with
    | some e =>
      exact ⟨tempCleanup_fs_not_mem _ _ _, tempCleanup_outcome _ _ _⟩
    | none =>
      exact ⟨tempCleanup_fs_not_mem _ _ _, tempCleanup_outcome _ _ _⟩

/-- **C5** counterexample: `delete_after = true`, one file whose upload
succeeds but whose `os.remove` fails with an `OSError`: the batch records the
task as succeeded, yet the local file is still present after the call
returns, refuting "for every task that succeeds, its local file is absent".
-/
theorem upload_files_batch_succeeded_file_still_present :
    "s/a" ∈ (upload_files_batch true [⟨"a", true⟩] "s" "d" 16 true
        [(⟨"s/a", "d/a"⟩, FutureResult.ok true)] (fun _ => false)
        ["s/a"]).fs
    ∧ (upload_files_batch true [⟨"a", true⟩] "s" "d" 16 true
        [(⟨"s/a", "d/a"⟩, FutureResult.ok true)] (fun _ => false)
        ["s/a"]).results = [true] := by
  decide

/-- **C5 amended.** When `upload_files_batch` is called with
`delete_after = true`: every task that succeeds and whose local deletion
(`os.remove`) itself succeeds has its local file absent from the filesystem
after the batch call returns; every task that fails keeps its local file; if
the deletion fails, the file remains present (and, by C6, the task is still
recorded as succeeded). -/
theorem upload_files_batch_delete_after_fs (entries : List DirEntry)
    (source_dir dest_dir : String) (max_workers : Nat)
    (completed : List (TransferTask × FutureResult)) (removeOk : String → Bool)
    (fs0 : List String)
    (hperm : (completed.map Prod.fst).Perm (collectFiles source_dir dest_dir entries))
    (hnd : (completed.map (fun item => item.1.localPath)).Nodup)
    (t : TransferTask) (fr : FutureResult) (hmem : (t, fr) ∈ completed) :
    (fr = FutureResult.ok true → removeOk t.localPath = true →
      t.localPath ∉ (upload_files_batch true entries source_dir dest_dir
        max_workers true completed removeOk fs0).fs)
    ∧ (outcomeBool fr = false → t.localPath ∈ fs0 →
      t.localPath ∈ (upload_files_batch true entries source_dir dest_dir
        max_workers true completed removeOk fs0).fs) := by
  have hlen : completed.length = (collectFiles source_dir dest_dir entries).length := by
    have h := hperm.length_eq
    rwa [List.length_map] at h
  have hne : (collectFiles source_dir dest_dir entries).isEmpty = false := by
    rcases h : collectFiles source_dir dest_dir entries with _ | ⟨a, l⟩
    · rw [h] at hlen
      rcases hc : completed with _ | _
      · rw [hc] at hmem
        cases hmem
      · rw [hc] at hlen
        simp at hlen
    · rfl
  constructor
  · intro hfr hro
    rw [upload_files_batch_fs_mem_main _ _ _ _ _ _ _ _ _ hne]
    rintro ⟨hp, hall⟩
    refine hall (t, fr) hmem ?_ rfl
    rw [removesFile_eq_true]
    exact ⟨hfr, rfl, hro⟩
  · intro hfb hp0
    rw [upload_files_batch_fs_mem_main _ _ _ _ _ _ _ _ _ hne]
    refine ⟨hp0, fun item hmem2 hrem => ?_⟩
    intro heq
    have hitem : item = (t, fr) :=
      List.inj_on_of_nodup_map hnd hmem2 hmem heq
    rw [removesFile_eq_true] at hrem
    rw [hitem] at hrem
    simp only at hrem
    rw [hrem.1] at hfb
    simp [outcomeBool] at hfb

/-- Witness for the amended C5: two files, one succeeds (deletion succeeds),
one fails; the first file is gone, the second remains. -/
theorem upload_files_batch_delete_after_fs_witness :
    ("s/a" ∉ (upload_files_batch true [⟨"a", true⟩, ⟨"b", true⟩] "s" "d" 16
        true
        [(⟨"s/b", "d/b"⟩, FutureResult.ok false),
         (⟨"s/a", "d/a"⟩, FutureResult.ok true)]
        (fun _ => true) ["s/a", "s/b"]).fs)
    ∧ ("s/b" ∈ (upload_files_batch true [⟨"a", true⟩, ⟨"b", true⟩] "s" "d" 16
        true
        [(⟨"s/b", "d/b"⟩, FutureResult.ok false),
         (⟨"s/a", "d/a"⟩, FutureResult.ok true)]
        (fun _ => true) ["s/a", "s/b"]).fs) := by
  have ha := upload_files_batch_delete_after_fs [⟨"a", true⟩, ⟨"b", true⟩]
    "s" "d" 16
    [(⟨"s/b", "d/b"⟩, FutureResult.ok false),
     (⟨"s/a", "d/a"⟩, FutureResult.ok true)]
    (fun _ => true) ["s/a", "s/b"] (by decide) (by decide)
    ⟨"s/a", "d/a"⟩ (FutureResult.ok true) (by decide)
  have hb := upload_files_batch_delete_after_fs [⟨"a", true⟩, ⟨"b", true⟩]
    "s" "d" 16
    [(⟨"s/b", "d/b"⟩, FutureResult.ok false),
     (⟨"s/a", "d/a"⟩, FutureResult.ok true)]
    (fun _ => true) ["s/a", "s/b"] (by decide) (by decide)
    ⟨"s/b", "d/b"⟩ (FutureResult.ok false) (by decide)
  exact ⟨ha.1 rfl rfl, hb.2 rfl (by decide)⟩

/-- **C6.** The recorded per-task outcomes and the aggregate return value of
`upload_files_batch` do not depend on the `os.remove` oracle at all: a
failure of the post-success local deletion changes neither the task's
recorded success value nor the batch's aggregate result, and (the function
being total) is never propagated — it is only logged. -/
theorem upload_files_batch_delete_failure_independent (isdir : Bool)
    (entries : List DirEntry) (source_dir dest_dir : String)
    (max_workers : Nat) (delete_after : Bool)
    (completed : List (TransferTask × FutureResult))
    (removeOk1 removeOk2 : String → Bool) (fs0 : List String) :
    (upload_files_batch isdir entries source_dir dest_dir max_workers
        delete_after completed removeOk1 fs0).results
      = (upload_files_batch isdir entries source_dir dest_dir max_workers
        delete_after completed removeOk2 fs0).results
    ∧ (upload_files_batch isdir entries source_dir dest_dir max_workers
        delete_after completed removeOk1 fs0).ret
      = (upload_files_batch isdir entries source_dir dest_dir max_workers
        delete_after completed removeOk2 fs0).ret := by
  cases isdir with
  | false => exact ⟨rfl, rfl⟩
  | true =>
    by_cases hne : (collectFiles source_dir dest_dir entries).isEmpty = true
    · constructor <;> simp [upload_files_batch, hne]
    · have hne2 : (collectFiles source_dir dest_dir entries).isEmpty = false := by
        simpa using hne
      rw [upload_files_batch_results_main _ _ _ _ _ _ _ _ hne2,
          upload_files_batch_results_main _ _ _ _ _ _ _ _ hne2,
          upload_files_batch_ret_main _ _ _ _ _ _ _ _ hne2,
          upload_files_batch_ret_main _ _ _ _ _ _ _ _ hne2]
      exact ⟨rfl, rfl⟩

/-- **C7.** For every `source_dir` that is not an existing directory
(`os.path.isdir` false), `upload_files_batch` returns `False` immediately:
zero tasks submitted, zero outcomes, no events, the filesystem untouched (and
no exception — the embedding is a total function). -/
theorem upload_files_batch_missing_dir (isdir : Bool)
    (entries : List DirEntry) (source_dir dest_dir : String)
    (max_workers : Nat) (delete_after : Bool)
    (completed : List (TransferTask × FutureResult))
    (removeOk : String → Bool) (fs0 : List String) (h : isdir = false) :
    (upload_files_batch isdir entries source_dir dest_dir max_workers
        delete_after completed removeOk fs0).ret = false
    ∧ (upload_files_batch isdir entries source_dir dest_dir max_workers
        delete_after completed removeOk fs0).results = []
    ∧ (upload_files_batch isdir entries source_dir dest_dir max_workers
        delete_after completed removeOk fs0).submitted = []
    ∧ (upload_files_batch isdir entries source_dir dest_dir max_workers
        delete_after completed removeOk fs0).events = []
    ∧ (upload_files_batch isdir entries source_dir dest_dir max_workers
        delete_after completed removeOk fs0).fs = fs0 := by
  subst h
  exact ⟨rfl, rfl, rfl, rfl, rfl⟩

/-- Witness for C7. -/
theorem upload_files_batch_missing_dir_witness :
    (upload_files_batch false [⟨"a", true⟩] "s" "d" 16 true
        [(⟨"s/a", "d/a"⟩, FutureResult.ok true)] (fun _ => true)
        ["s/a"]).ret = false
    ∧ (upload_files_batch false [⟨"a", true⟩] "s" "d" 16 true
        [(⟨"s/a", "d/a"⟩, FutureResult.ok true)] (fun _ => true)
        ["s/a"]).results = []
    ∧ (upload_files_batch false [⟨"a", true⟩] "s" "d" 16 true
        [(⟨"s/a", "d/a"⟩, FutureResult.ok true)] (fun _ => true)
        ["s/a"]).submitted = []
    ∧ (upload_files_batch false [⟨"a", true⟩] "s" "d" 16 true
        [(⟨"s/a", "d/a"⟩, FutureResult.ok true)] (fun _ => true)
        ["s/a"]).events = []
    ∧ (upload_files_batch false [⟨"a", true⟩] "s" "d" 16 true
        [(⟨"s/a", "d/a"⟩, FutureResult.ok true)] (fun _ => true)
        ["s/a"]).fs = ["s/a"] :=
  upload_files_batch_missing_dir false [⟨"a", true⟩] "s" "d" 16 true
    [(⟨"s/a", "d/a"⟩, FutureResult.ok true)] (fun _ => true) ["s/a"] rfl

/-- **C8.** For every existing source directory whose non-recursive listing
contains no regular files (entries that are not files, e.g. subdirectories,
are ignored), `upload_files_batch` returns `False` with zero outcomes, zero
submitted tasks, no events, and the filesystem untouched. -/
theorem upload_files_batch_no_regular_files (entries : List DirEntry)
    (source_dir dest_dir : String) (max_workers : Nat) (delete_after : Bool)
    (completed : List (TransferTask × FutureResult))
    (removeOk : String → Bool) (fs0 : List String)
    (h : ∀ e ∈ entries, e.isFile = false) :
    (upload_files_batch true entries source_dir dest_dir max_workers
        delete_after completed removeOk fs0).ret = false
    ∧ (upload_files_batch true entries source_dir dest_dir max_workers
        delete_after completed removeOk fs0).results = []
    ∧ (upload_files_batch true entries source_dir dest_dir max_workers
        delete_after completed removeOk fs0).submitted = []
    ∧ (upload_files_batch true entries source_dir dest_dir max_workers
        delete_after completed removeOk fs0).events = []
    ∧ (upload_files_batch true entries source_dir dest_dir max_workers
        delete_after completed removeOk fs0).fs = fs0 := by
  have hfilter : entries.filter (fun e => e.isFile) = [] := by
    rw [List.filter_eq_nil_iff]
    intro e he
    simp [h e he]
  have hfiles : collectFiles source_dir dest_dir entries = [] := by
    unfold collectFiles
    rw [hfilter]
    rfl
  simp [upload_files_batch, hfiles]

/-- Witness for C8: a directory containing only a subdirectory entry. -/
theorem upload_files_batch_no_regular_files_witness :
    (upload_files_batch true [⟨"sub", false⟩] "s" "d" 16 true []
        (fun _ => true) ["s/sub/x"]).ret = false
    ∧ (upload_files_batch true [⟨"sub", false⟩] "s" "d" 16 true []
        (fun _ => true) ["s/sub/x"]).results = []
    ∧ (upload_files_batch true [⟨"sub", false⟩] "s" "d" 16 true []
        (fun _ => true) ["s/sub/x"]).submitted = []
    ∧ (upload_files_batch true [⟨"sub", false⟩] "s" "d" 16 true []
        (fun _ => true) ["s/sub/x"]).events = []
    ∧ (upload_files_batch true [⟨"sub", false⟩] "s" "d" 16 true []
        (fun _ => true) ["s/sub/x"]).fs = ["s/sub/x"] :=
  upload_files_batch_no_regular_files [⟨"sub", false⟩] "s" "d" 16 true []
    (fun _ => true) ["s/sub/x"] (by decide)

/-- **C9.** When `delete_after` is false, `upload_files_batch` never deletes
any local file, regardless of how many uploads succeed, fail, or raise: the
final filesystem equals the initial one and the event trace contains no
deletion event. -/
theorem upload_files_batch_no_delete_preserves_fs (isdir : Bool)
    (entries : List DirEntry) (source_dir dest_dir : String)
    (max_workers : Nat) (completed : List (TransferTask × FutureResult))
    (removeOk : String → Bool) (fs0 : List String) :
    (upload_files_batch isdir entries source_dir dest_dir max_workers false
        completed removeOk fs0).fs = fs0
    ∧ ∀ p, Event.deleteLocal p ∉
        (upload_files_batch isdir entries source_dir dest_dir max_workers
          false completed removeOk fs0).events := by
  cases isdir with
  | false =>
    refine ⟨rfl, fun p h => ?_⟩
    simp [upload_files_batch] at h
  | true =>
    by_cases hne : (collectFiles source_dir dest_dir entries).isEmpty = true
    · refine ⟨?_, fun p h => ?_⟩
      · simp [upload_files_batch, hne]
      · simp [upload_files_batch, hne] at h
    · have hne2 : (collectFiles source_dir dest_dir entries).isEmpty = false := by
        simpa using hne
      have hfs : (upload_files_batch true entries source_dir dest_dir
          max_workers false completed removeOk fs0).fs
          = (completed.foldl (processCompleted false removeOk)
              { fs := fs0, results := [], events := [], errorLog := [] }).fs := by
        simp [upload_files_batch, hne2]
      constructor
      · rw [hfs]
        exact foldl_fs_no_delete removeOk completed _
      · intro p
        rw [upload_files_batch_events_main _ _ _ _ _ _ _ _ hne2]
        exact eventsOfRun_no_delete removeOk completed p

/-- **C10.** The `finally` cleanup of `download_file_temp` is guarded by an
existence check: if the temporary file no longer exists when the scope exits
(the caller removed it inside the scope), `os.unlink` is not called at all,
so the exit completes without a file-not-found error, and the filesystem is
exactly the original one. -/
theorem download_file_temp_exists_guard (tmp : String) (fs0 : List String)
    (bodyRaises : Option String) (hfresh : tmp ∉ fs0) :
    (download_file_temp tmp fs0 S3CallResult.ok true bodyRaises).unlinkCalled
      = false
    ∧ (download_file_temp tmp fs0 S3CallResult.ok true bodyRaises).outcome
      = tempScopeOutcome S3CallResult.ok bodyRaises
    ∧ (download_file_temp tmp fs0 S3CallResult.ok true bodyRaises).fs = fs0 := by
  have hfs2 : (fs0 ++ [tmp]).filter (fun p => p ≠ tmp) = fs0 := by
    rw [List.filter_append]
    have h1 : fs0.filter (fun p => p ≠ tmp) = fs0 := by
      rw [List.filter_eq_self]
      intro a ha
      simp only [decide_eq_true_eq]
      exact fun he => hfresh (he ▸ ha)
    have h2 : ([tmp].filter (fun p => p ≠ tmp)) = ([] : List String) := by
      simp
    rw [h1, h2, List.append_nil]
  have hnm : tmp ∉ fs0 := hfresh
  cases bodyRaises with
  | some e =>
    have heq : download_file_temp tmp fs0 S3CallResult.ok true (some e)
        = { fs := fs0, outcome := Except.error e, unlinkCalled := false } := by
      show tempCleanup tmp ((fs0 ++ [tmp]).filter (fun p => p ≠ tmp))
          (Except.error e) = _
      rw [hfs2]
      exact tempCleanup_not_mem_eq tmp fs0 (Except.error e) hnm
    rw [heq]
    exact ⟨rfl, rfl, rfl⟩
  | none =>
    have heq : download_file_temp tmp fs0 S3CallResult.ok true none
        = { fs := fs0, outcome := Except.ok (), unlinkCalled := false } := by
      show tempCleanup tmp ((fs0 ++ [tmp]).filter (fun p => p ≠ tmp))
          (Except.ok ()) = _
      rw [hfs2]
      exact tempCleanup_not_mem_eq tmp fs0 (Except.ok ()) hnm
    rw [heq]
    exact ⟨rfl, rfl, rfl⟩

/-- Witness for C10. -/
theorem download_file_temp_exists_guard_witness :
    (download_file_temp "t" ["x"] S3CallResult.ok true none).unlinkCalled
      = false
    ∧ (download_file_temp "t" ["x"] S3CallResult.ok true none).outcome
      = tempScopeOutcome S3CallResult.ok none
    ∧ (download_file_temp "t" ["x"] S3CallResult.ok true none).fs = ["x"] :=
  download_file_temp_exists_guard "t" ["x"] none (by decide)

end S3

end BaseUtils
